import Mathlib

/-!
Verification development for a minimal embedded key-value store
(`src/src/lib.rs`): a `Database` handle wrapping a `Storage` backend,
with one reference backend `JSONStorage` holding a
`BTreeMap<String, String>` in memory and a backing file.

The Rust code is shallowly embedded:
* the `BTreeMap<String, String>` is a key-sorted association list
  `List (String × String)` with the map operations `btreeGet`,
  `btreeInsert`, `btreeRemove`;
* the backing file's content is a `String` (the UTF-8 text of the file);
* `serde_json::to_vec` on the map is `serializeMap` (compact JSON object,
  keys in map order, serde's string-escaping rules), and its fallible
  serde-level counterpart is `serdeToVec` over `SerValue`;
* `serde_json::from_reader` into `BTreeMap<String, String>` is
  `parseJSONMap` (strict JSON object of strings, no trailing content);
* fallible operations return `Except IOError _`; the possibility of an
  I/O-level failure of `flush` is an explicit boolean `ioErr` parameter.
-/

namespace Kyiv

/-- `BTreeMap::get` on an association list whose keys are unique. -/
def btreeGet (k : String) : List (String × String) → Option String
  | [] => none
  | (k', v) :: t => if k = k' then some v else btreeGet k t

/-- `BTreeMap::insert`: keeps the list sorted by key, overwrites an
equal key. -/
def btreeInsert (k v : String) : List (String × String) → List (String × String)
  | [] => [(k, v)]
  | (k', v') :: t =>
    if k < k' then (k, v) :: (k', v') :: t
    else if k = k' then (k, v) :: t
    else (k', v') :: btreeInsert k v t

/-- `BTreeMap::remove` (return value discarded by `del`): removes the
entry with key `k`, if present. -/
def btreeRemove (k : String) : List (String × String) → List (String × String)
  | [] => []
  | (k', v') :: t => if k = k' then t else (k', v') :: btreeRemove k t

/-- The `BTreeMap` representation invariant: keys strictly increasing. -/
def SortedKeys (l : List (String × String)) : Prop :=
  l.Pairwise (fun a b => a.1 < b.1)

/-- Lower-case hex digit, as in serde's escape table. -/
def hexDigit (n : Nat) : Char :=
  if n < 10 then Char.ofNat (48 + n) else Char.ofNat (87 + n)

/-- serde_json's escaping of one character inside a JSON string:
`"` and `\` get a backslash escape, the five control characters with
short escapes use them, other control characters use `\u00XX`, and
everything else is written literally. -/
def escapeJSONChar (c : Char) : String :=
  if c = '"' then "\\\""
  else if c = '\\' then "\\\\"
  else if c = '\x08' then "\\b"
  else if c = '\x09' then "\\t"
  else if c = '\x0a' then "\\n"
  else if c = '\x0c' then "\\f"
  else if c = '\x0d' then "\\r"
  else if c.toNat < 0x20 then
    "\\u00" ++ String.mk [hexDigit (c.toNat / 16), hexDigit (c.toNat % 16)]
  else String.singleton c

/-- serde_json's serialization of a string: quotes around the escaped
characters. -/
def escapeJSONString (s : String) : String :=
  "\"" ++ String.join (s.data.map escapeJSONChar) ++ "\""

/-- The comma-separated `"key":"value"` members of the serialized map,
in map (key) order. -/
def serializeEntries : List (String × String) → String
  | [] => ""
  | [(k, v)] => escapeJSONString k ++ ":" ++ escapeJSONString v
  | (k, v) :: e :: t =>
    escapeJSONString k ++ ":" ++ escapeJSONString v ++ "," ++
      serializeEntries (e :: t)

/-- `serde_json::to_vec(&self.data)` for a `BTreeMap<String, String>`:
a compact JSON object. -/
def serializeMap (m : List (String × String)) : String :=
  "\x7b" ++ serializeEntries m ++ "\x7d"

/-- Rust values as seen by serde_json's serializer, to the extent the
store exercises it: strings, and maps whose keys are arbitrary values.
`serde_json::to_vec` fails exactly when a map key is not a string. -/
inductive SerValue where
  | str : String → SerValue
  | map : List (SerValue × SerValue) → SerValue
deriving Repr

/-- serde_json's serialization error cases reachable from `to_vec` on
in-memory data. -/
inductive SerError where
  | keyMustBeAString : SerError
deriving Repr, DecidableEq

mutual

/-- serde_json::to_vec at the serde level: may fail (on a map whose key
is not a string). -/
def serdeToVec : SerValue → Except SerError String
  | .str s => .ok (escapeJSONString s)
  | .map l =>
    match serdeEntriesToVec l with
    | .ok body => .ok ("\x7b" ++ body ++ "\x7d")
    | .error e => .error e

/-- Serialize the members of a map, comma-separated. -/
def serdeEntriesToVec : List (SerValue × SerValue) → Except SerError String
  | [] => .ok ""
  | [(k, v)] => serdeEntryToVec k v
  | (k, v) :: e :: t =>
    match serdeEntryToVec k v, serdeEntriesToVec (e :: t) with
    | .ok s, .ok rest => .ok (s ++ "," ++ rest)
    | .error er, _ => .error er
    | _, .error er => .error er

/-- Serialize one `key: value` member; the key must serialize to a JSON
string. -/
def serdeEntryToVec : SerValue → SerValue → Except SerError String
  | .str ks, v =>
    match serdeToVec v with
    | .ok vs => .ok (escapeJSONString ks ++ ":" ++ vs)
    | .error e => .error e
  | .map _, _ => .error .keyMustBeAString

end

/-- The `BTreeMap<String, String>` held by the storage, as the serde
value it serializes as. -/
def storageValue (m : List (String × String)) : SerValue :=
  .map (m.map (fun e => (.str e.1, .str e.2)))

/-- JSON whitespace, as accepted by serde_json between tokens. -/
def isJSONWs (c : Char) : Bool :=
  c = ' ' || c = '\t' || c = '\n' || c = '\r'

/-- Skip leading JSON whitespace. -/
def skipWs : List Char → List Char
  | [] => []
  | c :: t => if isJSONWs c then skipWs t else c :: t

/-- One hex digit of a `\uXXXX` escape. -/
def parseHexDigit (c : Char) : Option Nat :=
  if '0' ≤ c ∧ c ≤ '9' then some (c.toNat - 48)
  else if 'a' ≤ c ∧ c ≤ 'f' then some (c.toNat - 87)
  else if 'A' ≤ c ∧ c ≤ 'F' then some (c.toNat - 55)
  else none

/-- Four hex digits of a `\uXXXX` escape. -/
def parseHex4 : List Char → Option (Nat × List Char)
  | a :: b :: c :: d :: t =>
    match parseHexDigit a, parseHexDigit b, parseHexDigit c, parseHexDigit d with
    | some x, some y, some z, some w => some (((x * 16 + y) * 16 + z) * 16 + w, t)
    | _, _, _, _ => none
  | _ => none

/-- A `\u` escape after the `\u` has been consumed; surrogate pairs are
combined, lone surrogates rejected, as serde_json does. -/
def parseUnicodeEscape (input : List Char) : Option (Char × List Char) :=
  match parseHex4 input with
  | none => none
  | some (n, rest) =>
    if n < 0xD800 ∨ 0xE000 ≤ n then some (Char.ofNat n, rest)
    else if n < 0xDC00 then
      match rest with
      | '\\' :: 'u' :: rest2 =>
        match parseHex4 rest2 with
        | some (m, rest3) =>
          if 0xDC00 ≤ m ∧ m < 0xE000 then
            some (Char.ofNat (0x10000 + (n - 0xD800) * 0x400 + (m - 0xDC00)), rest3)
          else none
        | none => none
      | _ => none
    else none

/-- The body of a JSON string after the opening quote: literal
characters, backslash escapes, closing quote; unescaped control
characters are rejected, as serde_json does. `acc` is the reversed
prefix already read; `fuel` bounds recursion by the input length. -/
def parseStringBody : Nat → List Char → List Char → Option (String × List Char)
  | 0, _, _ => none
  | _ + 1, _, [] => none
  | fuel + 1, acc, c :: rest =>
    if c = '"' then some (String.mk acc.reverse, rest)
    else if c = '\\' then
      match rest with
      | [] => none
      | e :: rest2 =>
        if e = '"' then parseStringBody fuel ('"' :: acc) rest2
        else if e = '\\' then parseStringBody fuel ('\\' :: acc) rest2
        else if e = '/' then parseStringBody fuel ('/' :: acc) rest2
        else if e = 'b' then parseStringBody fuel ('\x08' :: acc) rest2
        else if e = 'f' then parseStringBody fuel ('\x0c' :: acc) rest2
        else if e = 'n' then parseStringBody fuel ('\x0a' :: acc) rest2
        else if e = 'r' then parseStringBody fuel ('\x0d' :: acc) rest2
        else if e = 't' then parseStringBody fuel ('\x09' :: acc) rest2
        else if e = 'u' then
          match parseUnicodeEscape rest2 with
          | some (ch, rest3) => parseStringBody fuel (ch :: acc) rest3
          | none => none
        else none
    else if c.toNat < 0x20 then none
    else parseStringBody fuel (c :: acc) rest

/-- The members of a JSON object being deserialized into a
`BTreeMap<String, String>`: `"key": "value"` pairs separated by commas,
terminated by `\x7d`; any non-string key or value is a type error
(`none`), and pairs land in the map via `btreeInsert` (a later
duplicate key overwrites an earlier one, as serde's map visitor does).
`input` starts at a key's opening quote; whitespace before it has been
skipped. -/
def parseMembers :
    Nat → List (String × String) → List Char →
      Option (List (String × String) × List Char)
  | 0, _, _ => none
  | fuel + 1, acc, input =>
    match input with
    | '"' :: rest =>
      match parseStringBody (fuel + 1) [] rest with
      | none => none
      | some (key, rest1) =>
        match skipWs rest1 with
        | ':' :: rest2 =>
          match skipWs rest2 with
          | '"' :: rest3 =>
            match parseStringBody (fuel + 1) [] rest3 with
            | none => none
            | some (val, rest4) =>
              let acc2 := btreeInsert key val acc
              match skipWs rest4 with
              | ',' :: rest5 => parseMembers fuel acc2 (skipWs rest5)
              | '\x7d' :: rest5 => some (acc2, rest5)
              | _ => none
          | _ => none
        | _ => none
    | _ => none

/-- `serde_json::from_reader` into a `BTreeMap<String, String>`: the
whole content must be one JSON object of string values, with nothing
but whitespace after it (`from_reader` calls `end()`); anything else —
empty input, malformed JSON, a non-object, non-string values, trailing
characters — fails (`none`). -/
def parseJSONMap (s : String) : Option (List (String × String)) :=
  let fuel := s.data.length + 1
  match skipWs s.data with
  | '\x7b' :: rest =>
    let parsed :=
      match skipWs rest with
      | '\x7d' :: rest1 => some (([] : List (String × String)), rest1)
      | other => parseMembers fuel [] other
    match parsed with
    | some (m, rest2) => if skipWs rest2 = [] then some m else none
    | none => none
  | _ => none

/-- The state of a `JSONStorage`: the in-memory map `data` and the
content of the backing file. The file's read/write cursor is not
tracked: every write in the code is preceded by a seek to the start. -/
structure JSONStorage where
  data : List (String × String)
  file : String
deriving Repr, DecidableEq

/-- The one error kind of the store: an I/O failure. -/
inductive IOError where
  | ioError : IOError
deriving Repr, DecidableEq

/-- `write_all` after `seek(SeekFrom::Start(0))`: the new bytes
overwrite the file content from offset zero; whatever of the old
content lies beyond the written length survives. There is no
truncation. -/
def overwriteFromStart (written old : String) : String :=
  String.mk (written.data ++ old.data.drop written.data.length)

/-- `JSONStorage::from(source)`: open the file read+write, creating it
if missing (a missing file, `none`, therefore reads as empty content);
deserialize the whole content, falling back to an empty map when
deserialization fails. `ioErr` stands for an I/O failure of the
open/clone calls themselves, which the `?` operators propagate. -/
def JSONStorage.fromSource (ioErr : Bool) (disk : Option String) :
    Except IOError JSONStorage :=
  if ioErr then .error .ioError
  else
    let content := disk.getD ""
    let data :=
      match parseJSONMap content with
      | some m => m
      | none => []
    .ok { data := data, file := content }

/-- `JSONStorage::flush`: seek to the start, serialize the whole map
(`expect` — always succeeds on this data, see `serdeToVec`), write all
bytes, flush. `ioErr` stands for an I/O failure of the seek/write/flush
calls, which `?` propagates. -/
def JSONStorage.flush (ioErr : Bool) (s : JSONStorage) :
    Except IOError JSONStorage :=
  if ioErr then .error .ioError
  else .ok { s with file := overwriteFromStart (serializeMap s.data) s.file }

/-- `JSONStorage::get`: look the key up in the in-memory map. -/
def JSONStorage.get (s : JSONStorage) (key : String) : Option String :=
  btreeGet key s.data

/-- `JSONStorage::del`: remove the key from the in-memory map; always
returns `Ok(())`. -/
def JSONStorage.del (s : JSONStorage) (key : String) :
    Except IOError JSONStorage :=
  .ok { s with data := btreeRemove key s.data }

/-- `JSONStorage::set`: insert/overwrite the key in the in-memory map;
always returns `Ok(())`. -/
def JSONStorage.set (s : JSONStorage) (key value : String) :
    Except IOError JSONStorage :=
  .ok { s with data := btreeInsert key value s.data }

/-- What becomes of a `Database` when it is dropped: either teardown
completed leaving the backend in a final state, or the
`.expect("failed to flush")` panicked. -/
inductive DropOutcome where
  | done : JSONStorage → DropOutcome
  | panicked : DropOutcome
deriving Repr, DecidableEq

/-- `impl Drop for Database`: `self.storage.flush().expect(...)`. The
second component counts how many times `flush` was invoked. -/
def Database.drop (ioErr : Bool) (s : JSONStorage) : DropOutcome × Nat :=
  match JSONStorage.flush ioErr s with
  | .ok s' => (.done s', 1)
  | .error _ => (.panicked, 1)

/-- Decidable equality of operation results, for checking concrete
runs. -/
instance {α β : Type} [DecidableEq α] [DecidableEq β] :
    DecidableEq (Except α β) := fun a b =>
  match a, b with
  | .ok x, .ok y =>
    if h : x = y then isTrue (by rw [h]) else isFalse (by simp [h])
  | .error x, .error y =>
    if h : x = y then isTrue (by rw [h]) else isFalse (by simp [h])
  | .ok _, .error _ => isFalse (by simp)
  | .error _, .ok _ => isFalse (by simp)

/-! Helper lemmas about the `BTreeMap` model. -/

theorem btreeGet_btreeInsert_self (k v : String) (l : List (String × String)) :
    btreeGet k (btreeInsert k v l) = some v := by
  induction l with
  | nil => simp [btreeInsert, btreeGet]
  | cons e t ih =>
    by_cases h1 : k < e.1
    · simp [btreeInsert, h1, btreeGet]
    · by_cases h2 : k = e.1
      · simp [btreeInsert, h1, h2, btreeGet]
      · simp [btreeInsert, h1, h2, btreeGet, ih]

theorem btreeGet_eq_none_of_forall (k : String) (l : List (String × String))
    (h : ∀ p ∈ l, p.1 ≠ k) : btreeGet k l = none := by
  induction l with
  | nil => rfl
  | cons e t ih =>
    have hk : k ≠ e.1 := Ne.symm (h e (by simp))
    simp [btreeGet, hk]
    exact ih (fun p hp => h p (by simp [hp]))

theorem mem_btreeInsert (k v : String) (l : List (String × String))
    (p : String × String) (h : p ∈ btreeInsert k v l) : p = (k, v) ∨ p ∈ l := by
  induction l with
  | nil => simpa [btreeInsert] using h
  | cons e t ih =>
    by_cases h1 : k < e.1
    · simpa [btreeInsert, h1] using h
    · by_cases h2 : k = e.1
      · rcases (by simpa [btreeInsert, h1, h2] using h : p = (k, v) ∨ p ∈ t) with h3 | h3
        · exact Or.inl h3
        · exact Or.inr (by simp [h3])
      · rcases (by simpa [btreeInsert, h1, h2] using h :
            p = e ∨ p ∈ btreeInsert k v t) with h3 | h3
        · exact Or.inr (by simp [h3])
        · rcases ih h3 with h4 | h4
          · exact Or.inl h4
          · exact Or.inr (by simp [h4])

theorem sortedKeys_btreeInsert (k v : String) (l : List (String × String))
    (h : SortedKeys l) : SortedKeys (btreeInsert k v l) := by
  induction l with
  | nil => simp [btreeInsert, SortedKeys]
  | cons e t ih =>
    rw [SortedKeys, List.pairwise_cons] at h
    obtain ⟨he, ht⟩ := h
    by_cases h1 : k < e.1
    · rw [SortedKeys, btreeInsert]
      simp only [h1, if_pos]
      refine List.Pairwise.cons ?_ (List.Pairwise.cons he ht)
      intro b hb
      rcases List.mem_cons.mp hb with h2 | h2
      · simpa [h2] using h1
      · exact lt_trans h1 (he b h2)
    · by_cases h2 : k = e.1
      · rw [SortedKeys, btreeInsert, if_neg h1, if_pos h2]
        refine List.Pairwise.cons (fun b hb => ?_) ht
        show k < b.1
        rw [h2]
        exact he b hb
      · rw [SortedKeys, btreeInsert, if_neg h1, if_neg h2]
        refine List.Pairwise.cons ?_ (ih ht)
        intro b hb
        rcases mem_btreeInsert k v t b hb with h3 | h3
        · have : e.1 < k := by
            rcases lt_trichotomy k e.1 with h4 | h4 | h4
            · exact absurd h4 h1
            · exact absurd h4 h2
            · exact h4
          simpa [h3] using this
        · exact he b h3

theorem btreeGet_btreeRemove_self (k : String) (l : List (String × String))
    (h : SortedKeys l) : btreeGet k (btreeRemove k l) = none := by
  induction l with
  | nil => rfl
  | cons e t ih =>
    rw [SortedKeys, List.pairwise_cons] at h
    obtain ⟨he, ht⟩ := h
    by_cases h1 : k = e.1
    · rw [btreeRemove, if_pos h1]
      exact btreeGet_eq_none_of_forall _ _
        (fun p hp => by rw [h1]; exact ne_of_gt (he p hp))
    · rw [btreeRemove, if_neg h1]
      simp [btreeGet, h1]
      exact ih ht

theorem btreeRemove_of_get_none (k : String) (l : List (String × String))
    (h : btreeGet k l = none) : btreeRemove k l = l := by
  induction l with
  | nil => rfl
  | cons e t ih =>
    rw [btreeGet] at h
    by_cases h1 : k = e.1
    · simp [h1] at h
    · simp only [h1, if_neg, not_false_iff, if_false] at h
      rw [btreeRemove]
      simp only [h1, if_neg, not_false_iff, if_false]
      rw [ih h]

theorem overwriteFromStart_idem (w old : String) :
    overwriteFromStart w (overwriteFromStart w old) = overwriteFromStart w old := by
  unfold overwriteFromStart
  congr 1
  simp

theorem serdeEntriesToVec_storage (m : List (String × String)) :
    serdeEntriesToVec (m.map (fun e => (SerValue.str e.1, SerValue.str e.2))) =
      .ok (serializeEntries m) := by
  induction m with
  | nil => simp [serdeEntriesToVec, serializeEntries]
  | cons e t ih =>
    obtain ⟨k, v⟩ := e
    cases t with
    | nil =>
      simp [serdeEntriesToVec, serializeEntries, serdeEntryToVec, serdeToVec]
    | cons e2 t2 =>
      obtain ⟨k2, v2⟩ := e2
      simp only [List.map_cons] at ih ⊢
      rw [serdeEntriesToVec, serdeEntryToVec, serdeToVec, ih, serializeEntries]

/-! The claims. -/

/-- C1: the claim fails on the code. `flush` never truncates, so when the
file previously held content longer than the new serialization, residual
bytes survive past the written JSON, the file content no longer
deserializes (serde_json rejects trailing characters), and reopening the
resource falls back to an empty map instead of the flushed one. Concretely:
flushing the map `a ↦ b` over a file holding `\x7b"aa":"bb"\x7d` leaves
`\x7b"a":"b"\x7d"\x7d`, which fails to parse, so reopening yields the empty
map rather than `a ↦ b`. -/
theorem flush_roundtrip_fails_on_shrink :
    JSONStorage.flush false
        { data := [("a", "b")], file := "\x7b\"aa\":\"bb\"\x7d" }
      = .ok { data := [("a", "b")], file := "\x7b\"a\":\"b\"\x7d\"\x7d" }
    ∧ parseJSONMap "\x7b\"a\":\"b\"\x7d\"\x7d" = none
    ∧ JSONStorage.fromSource false (some "\x7b\"a\":\"b\"\x7d\"\x7d")
      = .ok { data := [], file := "\x7b\"a\":\"b\"\x7d\"\x7d" } := by
  refine ⟨by decide, by decide, by decide⟩

/-- C2: the claim fails on the code. `flush` seeks to the start and
writes, with no truncation (`set_len` is never called), so a shorter
serialization leaves the tail of the prior, longer content in place:
flushing the empty map over a file holding `\x7b"a":"b"\x7d` leaves
`\x7b\x7da":"b"\x7d`, not the two-byte `\x7b\x7d` the claim requires. -/
theorem flush_no_truncate_leaves_residual :
    JSONStorage.flush false { data := [], file := "\x7b\"a\":\"b\"\x7d" }
      = .ok { data := [], file := "\x7b\x7da\":\"b\"\x7d" }
    ∧ "\x7b\x7da\":\"b\"\x7d" ≠ serializeMap [] := by
  refine ⟨by decide, by decide⟩

/-- C3: after `set(K, V)` succeeds, `get(K)` returns `Some(V)`: `set`
inserts into the `BTreeMap` and `get` looks the key up there. -/
theorem set_then_get (s : JSONStorage) (k v : String) (s' : JSONStorage)
    (h : s.set k v = .ok s') : s'.get k = some v := by
  simp only [JSONStorage.set, Except.ok.injEq] at h
  subst h
  exact btreeGet_btreeInsert_self k v s.data

/-- Witness for C3 at a concrete input. -/
theorem set_then_get_witness :
    JSONStorage.get { data := [("xixi", "haha")], file := "" } "xixi"
      = some "haha" :=
  set_then_get { data := [], file := "" } "xixi" "haha"
    { data := [("xixi", "haha")], file := "" } rfl

/-- C4: after `set(K, V)` followed by `del(K)`, `get(K)` returns `none`;
the state must satisfy the `BTreeMap` representation invariant
(strictly increasing keys), which every reachable state does. -/
theorem set_del_then_get (s : JSONStorage) (k v : String)
    (s1 s2 : JSONStorage) (hs : SortedKeys s.data)
    (h1 : s.set k v = .ok s1) (h2 : s1.del k = .ok s2) :
    s2.get k = none := by
  simp only [JSONStorage.set, Except.ok.injEq] at h1
  subst h1
  simp only [JSONStorage.del, Except.ok.injEq] at h2
  subst h2
  exact btreeGet_btreeRemove_self k _ (sortedKeys_btreeInsert k v s.data hs)

/-- Witness for C4 at a concrete input. -/
theorem set_del_then_get_witness :
    JSONStorage.get { data := [], file := "" } "k" = none :=
  set_del_then_get { data := [], file := "" } "k" "v"
    { data := [("k", "v")], file := "" } { data := [], file := "" }
    List.Pairwise.nil rfl rfl

/-- C5: `del` on an absent key returns `Ok(())` and leaves the whole
state (map and file) unchanged: `BTreeMap::remove` of a missing key is a
no-op and its return value is discarded. -/
theorem del_absent_noop (s : JSONStorage) (k : String)
    (h : s.get k = none) : s.del k = .ok s := by
  have h2 : btreeRemove k s.data = s.data := btreeRemove_of_get_none k s.data h
  simp [JSONStorage.del, h2]

/-- Witness for C5 at a concrete input. -/
theorem del_absent_noop_witness :
    JSONStorage.del { data := [("a", "b")], file := "f" } "z"
      = .ok { data := [("a", "b")], file := "f" } :=
  del_absent_noop { data := [("a", "b")], file := "f" } "z" (by decide)

/-- C6: opening a nonexistent resource (`none`: created empty by
`File::options().create(true)`) or one whose content fails to
deserialize yields `Ok` with an empty in-memory map, on which `get`
returns `none` for every key. -/
theorem fromSource_unparsable_empty (disk : Option String)
    (h : parseJSONMap (disk.getD "") = none) :
    JSONStorage.fromSource false disk
        = .ok { data := [], file := disk.getD "" }
      ∧ ∀ k : String,
        JSONStorage.get { data := [], file := disk.getD "" } k = none := by
  constructor
  · simp [JSONStorage.fromSource, h]
  · intro k
    rfl

/-- Witness for C6: a nonexistent file and a malformed one. -/
theorem fromSource_unparsable_empty_witness :
    (JSONStorage.fromSource false none = .ok { data := [], file := "" }
      ∧ ∀ k : String, JSONStorage.get { data := [], file := "" } k = none)
    ∧ (JSONStorage.fromSource false (some "not json")
          = .ok { data := [], file := "not json" }
      ∧ ∀ k : String,
          JSONStorage.get { data := [], file := "not json" } k = none) :=
  ⟨fromSource_unparsable_empty none (by decide),
   fromSource_unparsable_empty (some "not json") (by decide)⟩

/-- C7: `set` and `del` touch only the in-memory map; the backing file
content is unchanged by either (persistence happens only at flush). -/
theorem set_del_never_write_file (s : JSONStorage) (k v : String)
    (s1 s2 : JSONStorage) (h1 : s.set k v = .ok s1)
    (h2 : s.del k = .ok s2) : s1.file = s.file ∧ s2.file = s.file := by
  simp only [JSONStorage.set, Except.ok.injEq] at h1
  subst h1
  simp only [JSONStorage.del, Except.ok.injEq] at h2
  subst h2
  exact ⟨rfl, rfl⟩

/-- Witness for C7 at a concrete input. -/
theorem set_del_never_write_file_witness :
    ({ data := [("k", "v")], file := "f" } : JSONStorage).file
        = ({ data := [], file := "f" } : JSONStorage).file
      ∧ ({ data := [], file := "f" } : JSONStorage).file
        = ({ data := [], file := "f" } : JSONStorage).file :=
  set_del_never_write_file { data := [], file := "f" } "k" "v"
    { data := [("k", "v")], file := "f" } { data := [], file := "f" } rfl rfl

/-- C8: two consecutive successful flushes with no intervening mutation
leave byte-identical file content: both write the same serialization
from offset zero over what the first flush left. -/
theorem flush_twice_idempotent (e1 e2 : Bool) (s s1 s2 : JSONStorage)
    (h1 : JSONStorage.flush e1 s = .ok s1)
    (h2 : JSONStorage.flush e2 s1 = .ok s2) : s2.file = s1.file := by
  cases e1 with
  | true => simp [JSONStorage.flush] at h1
  | false =>
    cases e2 with
    | true => simp [JSONStorage.flush] at h2
    | false =>
      simp only [JSONStorage.flush, if_neg, Except.ok.injEq,
        Bool.false_eq_true, not_false_iff] at h1 h2
      subst h1
      subst h2
      exact overwriteFromStart_idem (serializeMap s.data) s.file

/-- Witness for C8 at a concrete input. -/
theorem flush_twice_idempotent_witness :
    ({ data := [], file := "\x7b\x7dz" } : JSONStorage).file
      = ({ data := [], file := "\x7b\x7dz" } : JSONStorage).file :=
  flush_twice_idempotent false false { data := [], file := "xyz" }
    { data := [], file := "\x7b\x7dz" } { data := [], file := "\x7b\x7dz" }
    (by decide) (by decide)

/-- C9: dropping a `Database` invokes `flush` on its backend exactly
once (the invocation count is 1 in every case), and a failed flush is
escalated by `.expect("failed to flush")` — the teardown panics instead
of swallowing the error — while a successful flush completes teardown
with the flushed state. -/
theorem drop_flushes_once_escalates (ioErr : Bool) (s : JSONStorage) :
    (Database.drop ioErr s).2 = 1
    ∧ (∀ e : IOError, JSONStorage.flush ioErr s = .error e →
        (Database.drop ioErr s).1 = .panicked)
    ∧ (∀ s' : JSONStorage, JSONStorage.flush ioErr s = .ok s' →
        (Database.drop ioErr s).1 = .done s') := by
  refine ⟨?_, ?_, ?_⟩
  · cases hf : JSONStorage.flush ioErr s <;> simp [Database.drop, hf]
  · intro e he
    simp [Database.drop, he]
  · intro s' hs'
    simp [Database.drop, hs']

/-- Witness for C9: teardown with a failing flush panics; with a
successful flush it completes. -/
theorem drop_flushes_once_escalates_witness :
    (Database.drop true { data := [], file := "" }).1 = .panicked
    ∧ (Database.drop false { data := [], file := "" }).1
        = .done { data := [], file := "\x7b\x7d" } :=
  ⟨(drop_flushes_once_escalates true { data := [], file := "" }).2.1
      .ioError (by decide),
   (drop_flushes_once_escalates false { data := [], file := "" }).2.2
      { data := [], file := "\x7b\x7d" } (by decide)⟩

/-- C10: serializing the in-memory `String → String` map during `flush`
always succeeds: at the serde level every key is a string, so the
`key_must_be_a_string` failure (the only one `to_vec` can raise on this
data) never fires and the `.expect("should be able to serialize")`
panic branch is unreachable; the successful output is exactly the JSON
object `flush` writes. -/
theorem flush_serialize_always_ok (s : JSONStorage) :
    serdeToVec (storageValue s.data) = .ok (serializeMap s.data) := by
  rw [storageValue, serdeToVec, serdeEntriesToVec_storage s.data]
  rfl

end Kyiv
